import Mathlib

/-!
# Verification of the order/product management core (design_patterns_api)

Shallow embedding of the repository's order-creation pipeline, product
store, discount application, notification bus and statistics listener.

Modelling conventions:
* JavaScript numbers are modelled as `Int` (all values the claims touch
  are integers; `Number.isInteger` checks are therefore vacuously true and
  noted in comments where they occur in the source).
* The in-memory `Map` collections of `Database` are modelled as
  insertion-ordered association lists (`List Product`, `List Order`);
  `Map.get` is `List.find?` on the key and `Map.set` is replace-or-append.
* Stateful methods become explicit state passing: an operation takes the
  database value and returns the (possibly partially) mutated database,
  the list of events published during the call, and an `Except` carrying
  the return value or the thrown error message.  A thrown error does NOT
  roll the returned database back — exactly as throwing leaves the shared
  JS heap mutated.
* The JS `OrderItem` stores a live reference to the `Product` object; the
  reference is modelled by the product's id (`productRef`), which the
  repository never reassigns, and reference reads (`item.product.name`)
  resolve through the product store.
* Observer object identity (JS `===` in `Array.includes` / `indexOf`) is
  modelled by a numeric `ref` field; a listener's `update` method returns
  `Except String Unit`, `.error` standing for a thrown exception.
-/

deriving instance DecidableEq for Except

/-- `String.prototype.trim()`: strip leading and trailing whitespace
(executable list-level definition, since `String.trim` does not reduce in
the kernel). -/
def strTrim (s : String) : String :=
  ⟨((s.data.dropWhile Char.isWhitespace).reverse.dropWhile Char.isWhitespace).reverse⟩

/-- `String.prototype.toLowerCase()` (executable definition). -/
def strToLower (s : String) : String :=
  ⟨s.data.map Char.toLower⟩

/-- `src/models/Product.js` — the Product entity (timestamps omitted:
no claim mentions `createdAt`/`updatedAt`). -/
structure Product where
  id : Nat
  name : String
  description : String
  price : Int
  stock : Int
  category : String

deriving Repr, DecidableEq

/-- Partial update payload for `Product.update(data)`; `none` models an
absent (`undefined`) field. -/
structure ProductUpdateData where
  name : Option String := none
  description : Option String := none
  price : Option Int := none
  stock : Option Int := none
  category : Option String := none

deriving Repr, DecidableEq

/-- `Product.update(data)`: `name`/`description`/`price`/`category` are
copied only when truthy (so `price: 0` or an empty string is ignored),
`stock` whenever it is not `undefined`.  The id is never touched. -/
def Product.update (p : Product) (d : ProductUpdateData) : Product :=
  let p := match d.name with
    | some n => if n ≠ "" then { p with name := n } else p
    | none => p
  let p := match d.description with
    | some s => if s ≠ "" then { p with description := s } else p
    | none => p
  let p := match d.price with
    | some v => if v ≠ 0 then { p with price := v } else p
    | none => p
  let p := match d.stock with
    | some v => { p with stock := v }
    | none => p
  match d.category with
    | some c => if c ≠ "" then { p with category := c } else p
    | none => p

/-- `Product.hasStock(quantity)`: `this.stock >= quantity`. -/
def Product.hasStock (p : Product) (quantity : Int) : Bool :=
  p.stock ≥ quantity

/-- `Product.reduceStock(quantity)`: throws when the availability check
fails, otherwise decrements the stock in place. -/
def Product.reduceStock (p : Product) (quantity : Int) : Except String Product :=
  if p.hasStock quantity then .ok { p with stock := p.stock - quantity }
  else .error "Estoque insuficiente"

/-- `Product.increaseStock(quantity)`: unconditional increment. -/
def Product.increaseStock (p : Product) (quantity : Int) : Product :=
  { p with stock := p.stock + quantity }

/-- `src/models/Order.js` — the OrderItem entity.  The JS object keeps a
live reference `this.product`; `productRef` is that reference (the
product's id, which is stable), while `quantity` and `unitPrice` are
captured by value at construction time. -/
structure OrderItem where
  productRef : Nat
  quantity : Int
  unitPrice : Int

deriving Repr, DecidableEq

/-- `OrderItem.getSubtotal()`: `quantity * unitPrice`. -/
def OrderItem.getSubtotal (it : OrderItem) : Int :=
  it.quantity * it.unitPrice

/-- `src/models/Order.js` — the Order entity (timestamps omitted).
Status is the literal JS string, one of `"PENDING"`, `"PROCESSING"`,
`"COMPLETED"`, `"CANCELLED"`. -/
structure Order where
  id : Nat
  customerId : String
  customerName : String
  items : List OrderItem
  status : String
  subtotal : Int
  discount : Int
  total : Int

deriving Repr, DecidableEq

/-- The `Order` constructor: fresh order in `PENDING` with no items
(`id = null` is modelled as `0`; the repository assigns the real id). -/
def Order.new (customerId customerName : String) : Order :=
  { id := 0, customerId := customerId, customerName := customerName,
    items := [], status := "PENDING", subtotal := 0, discount := 0, total := 0 }

/-- `this.items.reduce((sum, item) => sum + item.getSubtotal(), 0)`. -/
def itemsSubtotal (items : List OrderItem) : Int :=
  items.foldl (fun s it => s + it.getSubtotal) 0

/-- `Order.recalculateTotal()`: recompute `subtotal` from the item list
and `total = Math.max(0, subtotal - discount)`. -/
def Order.recalculateTotal (o : Order) : Order :=
  let st := itemsSubtotal o.items
  { o with subtotal := st, total := max 0 (st - o.discount) }

/-- `Order.addItem(product, quantity)`: pushes a new `OrderItem`
capturing the product's current price, then recalculates. -/
def Order.addItem (o : Order) (p : Product) (quantity : Int) : Order :=
  Order.recalculateTotal
    { o with items := o.items ++ [{ productRef := p.id, quantity := quantity, unitPrice := p.price }] }

/-- `Order.applyDiscount(discountAmount)`: set the discount, recalculate. -/
def Order.applyDiscount (o : Order) (discountAmount : Int) : Order :=
  Order.recalculateTotal { o with discount := discountAmount }

/-- Membership in `Order.STATUS`. -/
def validStatus (s : String) : Bool :=
  s = "PENDING" || s = "PROCESSING" || s = "COMPLETED" || s = "CANCELLED"

/-- `Order.updateStatus(newStatus)`: throws on a status outside the enum,
otherwise overwrites the status (no transition gating). -/
def Order.updateStatus (o : Order) (newStatus : String) : Except String Order :=
  if validStatus newStatus then .ok { o with status := newStatus }
  else .error "Status invalido"

/-- `Order.canBeCancelled()`: only from `PENDING` or `PROCESSING`. -/
def Order.canBeCancelled (o : Order) : Bool :=
  o.status = "PENDING" || o.status = "PROCESSING"

/-- `src/config/Database.js` — the singleton in-memory store: two keyed
collections plus the two auto-increment counters. -/
structure DB where
  products : List Product
  orders : List Order
  productCounter : Nat
  orderCounter : Nat

deriving Repr, DecidableEq

/-- `Map.get(id)` on the products collection. -/
def findProduct (ps : List Product) (pid : Nat) : Option Product :=
  ps.find? (fun p => p.id == pid)

/-- `Map.set(id, product)` when the key is already present: replace the
entry in place (insertion order preserved). -/
def setProduct (ps : List Product) (pid : Nat) (p : Product) : List Product :=
  ps.map (fun q => if q.id == pid then p else q)

/-- `Map.get(id)` on the orders collection. -/
def findOrder (os : List Order) (oid : Nat) : Option Order :=
  os.find? (fun o => o.id == oid)

/-- `Map.set(id, order)`: replace when the key exists, append otherwise. -/
def setOrder (os : List Order) (oid : Nat) (o : Order) : List Order :=
  if os.any (fun q => q.id == oid) then os.map (fun q => if q.id == oid then o else q)
  else os ++ [o]

/-- Stock of the product stored under `pid` (`none` when absent). -/
def stockAt (ps : List Product) (pid : Nat) : Option Int :=
  (findProduct ps pid).map Product.stock

/-- `OrderItem.toJSON()`: `productId` and `productName` are read through
the live product reference (resolved against the product store),
`quantity`/`unitPrice`/`subtotal` come from the captured fields. -/
structure OrderItemJSON where
  productId : Nat
  productName : String
  quantity : Int
  unitPrice : Int
  subtotal : Int

deriving Repr, DecidableEq

def OrderItem.toJSON (products : List Product) (it : OrderItem) : OrderItemJSON :=
  { productId := it.productRef,
    productName := ((findProduct products it.productRef).map Product.name).getD "",
    quantity := it.quantity,
    unitPrice := it.unitPrice,
    subtotal := it.getSubtotal }

/-- `ProductRepository.existsByName(name)`: case-insensitive scan. -/
def existsByName (ps : List Product) (name : String) : Bool :=
  ps.any (fun p => strToLower p.name == strToLower name)

/-- `ProductRepository.create(product)`: assign `getNextProductId()`
(pre-incremented counter) and `Map.set` the record. -/
def ProductRepository.create (db : DB) (p : Product) : DB × Product :=
  let pid := db.productCounter + 1
  let p2 := { p with id := pid }
  ({ db with
      products := if db.products.any (fun q => q.id == pid) then setProduct db.products pid p2
                  else db.products ++ [p2],
      productCounter := pid }, p2)

/-- `ProductRepository.update(id, updatedData)`: find (throw `NotFound`
when absent, modelled as `none`), mutate via `Product.update`, re-set. -/
def ProductRepository.update (ps : List Product) (pid : Nat) (d : ProductUpdateData) :
    Option (List Product × Product) :=
  match findProduct ps pid with
  | none => none
  | some p =>
    let p2 := p.update d
    some (setProduct ps pid p2, p2)

/-- `OrderRepository.create(order)`: assign `getNextOrderId()` and set. -/
def OrderRepository.create (db : DB) (o : Order) : DB × Order :=
  let oid := db.orderCounter + 1
  let o2 := { o with id := oid }
  ({ db with orders := setOrder db.orders oid o2, orderCounter := oid }, o2)

/-- Events published on the bus: a `{type, data}` record whose payload is
a by-value snapshot (`toJSON`) of the entity at publication time. -/
inductive Event where
  | productLowStock (product : Product)
  | orderCreated (order : Order)
  | orderStatusChanged (orderId : Nat) (oldStatus newStatus : String) (order : Order)
  | orderCancelled (order : Order)
deriving Repr, DecidableEq

/-- `true` on `Except.ok`, `false` on a thrown error. -/
def okB {α : Type} : Except String α → Bool
  | .ok _ => true
  | .error _ => false

/-- The order carried by a successful result. -/
def okOrder : Except String Order → Option Order
  | .ok o => some o
  | .error _ => none

/-- The item loop of `OrderFacade.createOrder` (steps 3–5 of the facade):
for each requested item, look the product up (`NotFound` when absent),
check stock (`InsufficientStock`), append the captured item to the order,
decrement and persist the stock, and publish a low-stock event
immediately when the resulting stock dropped below 10.  The product list
is threaded through so that a mid-loop throw keeps every earlier
decrement, exactly as in the JS heap. -/
structure RequestItem where
  productId : Nat
  quantity : Int

deriving Repr, DecidableEq

def processItems : List RequestItem → List Product → Order →
    List Product × List Event × Except String Order
  | [], ps, o => (ps, [], .ok o)
  | it :: rest, ps, o =>
    match findProduct ps it.productId with
    | none => (ps, [], .error "Produto nao encontrado")
    | some p =>
      if p.hasStock it.quantity then
        -- product.reduceStock(quantity): the guard just passed, so the
        -- method's internal throw is unreachable; stock -= quantity.
        let p2 : Product := { p with stock := p.stock - it.quantity }
        let o2 := o.addItem p it.quantity
        let ps2 := setProduct ps p.id p2
        let evs : List Event := if p2.stock < 10 then [.productLowStock p2] else []
        let r := processItems rest ps2 o2
        (r.1, evs ++ r.2.1, r.2.2)
      else (ps, [], .error "Estoque insuficiente")

/-- The request object consumed by `createOrder`. -/
structure OrderRequest where
  customerId : String
  customerName : String
  items : List RequestItem

deriving Repr, DecidableEq

/-- `OrderFacade.createOrder(orderData)` — `src/facades/OrderFacade.js`.
`strat` is the active discount strategy's `calculate` method.  Returns the
database after the call (partial mutation included on failure), the
events published during the call, and the persisted order or the thrown
error. -/
def OrderFacade.createOrder (db : DB) (strat : Int → Int) (req : OrderRequest) :
    DB × List Event × Except String Order :=
  if req.customerId = "" ∨ req.customerName = "" then
    (db, [], .error "Dados do cliente sao obrigatorios")
  else if req.items = [] then
    (db, [], .error "Pedido deve conter pelo menos um item")
  else
    match processItems req.items db.products (Order.new req.customerId req.customerName) with
    | (ps1, evs1, .error e) => ({ db with products := ps1 }, evs1, .error e)
    | (ps1, evs1, .ok o1) =>
      let o2 := o1.applyDiscount (strat o1.subtotal)
      let r := OrderRepository.create { db with products := ps1 } o2
      (r.1, evs1 ++ [.orderCreated r.2], .ok r.2)

/-- `OrderFacade.updateOrderStatus(orderId, newStatus)`: `NotFound` on an
unknown id, `updateStatus` validates the enum, then persist and publish a
status-changed event carrying old status, new status and the order. -/
def OrderFacade.updateOrderStatus (db : DB) (oid : Nat) (newStatus : String) :
    DB × List Event × Except String Order :=
  match findOrder db.orders oid with
  | none => (db, [], .error "Pedido nao encontrado")
  | some o =>
    let oldStatus := o.status
    match o.updateStatus newStatus with
    | .error e => (db, [], .error e)
    | .ok o2 =>
      ({ db with orders := setOrder db.orders oid o2 },
       [.orderStatusChanged oid oldStatus newStatus o2], .ok o2)

/-- The restoration loop of `OrderFacade.cancelOrder`: for every item of
the order, look the product up fresh; when it still exists, increase its
stock by the item quantity and persist; when it vanished, skip. -/
def restoreItems : List OrderItem → List Product → List Product
  | [], ps => ps
  | it :: rest, ps =>
    match findProduct ps it.productRef with
    | none => restoreItems rest ps
    | some p => restoreItems rest (setProduct ps p.id (p.increaseStock it.quantity))

/-- `OrderFacade.cancelOrder(orderId)`: `NotFound` on an unknown id,
`InvalidState` unless the status is PENDING or PROCESSING, then restore
stock per item, set the status to CANCELLED (`order.cancel()` — its
internal guard just passed), persist and publish the cancellation. -/
def OrderFacade.cancelOrder (db : DB) (oid : Nat) :
    DB × List Event × Except String Order :=
  match findOrder db.orders oid with
  | none => (db, [], .error "Pedido nao encontrado")
  | some o =>
    if o.canBeCancelled then
      let ps2 := restoreItems o.items db.products
      let o2 := { o with status := "CANCELLED" }
      ({ db with products := ps2, orders := setOrder db.orders oid o2 },
       [.orderCancelled o2], .ok o2)
    else (db, [], .error "Pedido nao pode ser cancelado")

/-- One item's checks inside `OrderValidationStrategy.validate`'s
`forEach` (`src/strategies/ValidationStrategies.js`): product id
required (`!item.productId`, so `0` fails), quantity strictly positive
(`!item.quantity || item.quantity <= 0`).  The third check,
`!Number.isInteger(item.quantity)`, never fires here because quantities
are `Int` in this model. -/
def validateItem (idx : Nat) (it : RequestItem) : List String :=
  (if it.productId = 0 then ["Item " ++ toString (idx + 1) ++ ": ID do produto e obrigatorio"]
   else []) ++
  (if it.quantity ≤ 0 then ["Item " ++ toString (idx + 1) ++ ": Quantidade deve ser maior que zero"]
   else [])

def validateItems (idx : Nat) : List RequestItem → List String
  | [] => []
  | it :: rest => validateItem idx it ++ validateItems (idx + 1) rest

/-- `OrderValidationStrategy.validate(orderData)`: collects ALL
violations in source order — customer id (truthy), customer name (truthy
and non-blank after trim, then minimum length 3 on the untrimmed
string), then the item list (must be a non-empty array; the
`Array.isArray` branch cannot fail in this model) with per-item checks.
Returns the error list; `isValid` is its emptiness. -/
def OrderValidationStrategy.validate (r : OrderRequest) : List String :=
  (if r.customerId = "" then ["ID do cliente e obrigatorio"] else []) ++
  (if r.customerName = "" ∨ (strTrim r.customerName).length = 0 then
     ["Nome do cliente e obrigatorio"]
   else if r.customerName.length < 3 then
     ["Nome do cliente deve ter no minimo 3 caracteres"]
   else []) ++
  (if r.items = [] then ["Pedido deve conter pelo menos um item"]
   else validateItems 0 r.items)

/-- `OrderService.createOrder(orderData)` (`src/services/OrderService.js`):
validate with the strategy; when any violation exists, throw a
ValidationError whose message joins all collected errors; otherwise
delegate to the facade. -/
def OrderService.createOrder (db : DB) (strat : Int → Int) (req : OrderRequest) :
    DB × List Event × Except String Order :=
  let errs := OrderValidationStrategy.validate req
  if errs.isEmpty then OrderFacade.createOrder db strat req
  else (db, [], .error ("Validation failed: " ++ String.intercalate ", " errs))

/-- `ProductValidationStrategy.validate(productData)`: name (required,
3–100 chars), price (required, positive — the `typeof` check cannot fail
in this model), stock (required, non-negative — `Number.isInteger` is
vacuous here), category (required), description (≤ 500 chars when
given). -/
structure ProductRequest where
  name : String := ""
  description : Option String := none
  price : Option Int := none
  stock : Option Int := none
  category : String := ""

deriving Repr, DecidableEq

def ProductValidationStrategy.validate (r : ProductRequest) : List String :=
  (if r.name = "" ∨ (strTrim r.name).length = 0 then ["Nome do produto e obrigatorio"]
   else if r.name.length < 3 then ["Nome do produto deve ter no minimo 3 caracteres"]
   else if r.name.length > 100 then ["Nome do produto deve ter no maximo 100 caracteres"]
   else []) ++
  (match r.price with
   | none => ["Preco e obrigatorio"]
   | some v =>
     if v < 0 then ["Preco nao pode ser negativo"]
     else if v = 0 then ["Preco deve ser maior que zero"]
     else []) ++
  (match r.stock with
   | none => ["Estoque e obrigatorio"]
   | some v => if v < 0 then ["Estoque nao pode ser negativo"] else []) ++
  (if r.category = "" ∨ (strTrim r.category).length = 0 then ["Categoria e obrigatoria"] else []) ++
  (match r.description with
   | some d => if d ≠ "" ∧ d.length > 500 then ["Descricao deve ter no maximo 500 caracteres"] else []
   | none => [])

/-- `ProductService.createProduct(productData)`
(`src/services/ProductService.js`): validate (throw joining all errors),
reject a name that already exists case-insensitively, otherwise build the
Product (`description || ''`) and persist it through the repository.
Returns the database after the call and the created product or the
thrown error. -/
def ProductService.createProduct (db : DB) (r : ProductRequest) :
    DB × Except String Product :=
  let errs := ProductValidationStrategy.validate r
  if ¬ errs.isEmpty then
    (db, .error ("Validation failed: " ++ String.intercalate ", " errs))
  else if existsByName db.products r.name then
    (db, .error ("Ja existe um produto com o nome: " ++ r.name))
  else
    let p : Product :=
      { id := 0, name := r.name, description := r.description.getD "",
        price := r.price.getD 0, stock := r.stock.getD 0, category := r.category }
    let res := ProductRepository.create db p
    (res.1, .ok res.2)

/-- `src/observers/` — a listener: `ref` is the JS object identity (what
`Array.includes` / `indexOf` compare with `===`), `update` its handler;
`.error` models a thrown exception. -/
structure Observer where
  ref : Nat
  update : Event → Except String Unit

/-- `EventSubject` (`src/observers/EventSubject.js`): the ordered
observer list. -/
structure EventSubject where
  observers : List Observer

/-- `EventSubject.attach(observer)`: push only when not already included
(`this.observers.includes(observer)` — reference equality). -/
def EventSubject.attach (s : EventSubject) (o : Observer) : EventSubject :=
  if s.observers.any (fun q => q.ref == o.ref) then s
  else { s with observers := s.observers ++ [o] }

/-- `EventSubject.detach(observer)`: remove the first occurrence. -/
def EventSubject.detach (s : EventSubject) (o : Observer) : EventSubject :=
  { s with observers := s.observers.eraseP (fun q => q.ref == o.ref) }

/-- `EventSubject.notify(event)`: `forEach` over the observers in order;
each `observer.update(event)` runs inside `try`/`catch`, so a thrown
error is recorded (logged) and delivery continues — the function is total
and never re-throws to the publisher.  The result is the delivery trace:
one `(identity, outcome)` entry per attached observer. -/
def EventSubject.notify (s : EventSubject) (e : Event) : List (Nat × Except String Unit) :=
  s.observers.map (fun o => (o.ref, o.update e))

/-- `StatisticsObserver` state (`src/observers/ConcreteObservers.js`). -/
structure Statistics where
  ordersCreated : Nat
  ordersCompleted : Nat
  ordersCancelled : Nat
  totalRevenue : Int
  lowStockAlerts : Nat

deriving Repr, DecidableEq

/-- `StatisticsObserver.update(event)`: counters per event type; on a
status change the completed counter and the running revenue move only
when the NEW status is COMPLETED — the old status is never consulted. -/
def StatisticsObserver.update (s : Statistics) : Event → Statistics
  | .orderCreated _ => { s with ordersCreated := s.ordersCreated + 1 }
  | .orderStatusChanged _ _ newStatus o =>
    if newStatus = "COMPLETED" then
      { s with ordersCompleted := s.ordersCompleted + 1,
               totalRevenue := s.totalRevenue + o.total }
    else s
  | .orderCancelled _ => { s with ordersCancelled := s.ordersCancelled + 1 }
  | .productLowStock _ => { s with lowStockAlerts := s.lowStockAlerts + 1 }

/-- Total quantity the request orders of product `pid`. -/
def reqQty : List RequestItem → Nat → Int
  | [], _ => 0
  | it :: rest, pid => (if it.productId = pid then it.quantity else 0) + reqQty rest pid

/-- Total quantity the order's items reference product `pid` with. -/
def itemQty : List OrderItem → Nat → Int
  | [], _ => 0
  | it :: rest, pid => (if it.productRef = pid then it.quantity else 0) + itemQty rest pid

/-- The stock values carried by the low-stock events for product `pid`,
in publication order. -/
def lowStockFor (pid : Nat) : Event → Option Int
  | .productLowStock p => if p.id = pid then some p.stock else none
  | _ => none

def lowStockEvents (evs : List Event) (pid : Nat) : List Int :=
  evs.filterMap (lowStockFor pid)

/-- `NoDiscountStrategy.calculate(orderTotal)` — always 0. -/
def NoDiscountStrategy.calculate (orderTotal : Int) : Int := 0

/-- Concrete store: product 1 with stock 5, product 2 out of stock. -/
def fixProducts1 : DB :=
  { products := [⟨1, "Produto A", "", 10, 5, "geral"⟩, ⟨2, "Produto B", "", 5, 0, "geral"⟩],
    orders := [], productCounter := 2, orderCounter := 0 }

/-- Request ordering 2 of product 1 and then 1 of product 2. -/
def fixReqTwoItems : OrderRequest :=
  { customerId := "c1", customerName := "Cliente A", items := [⟨1, 2⟩, ⟨2, 1⟩] }

/-- Concrete store: one product with stock 8 (below the threshold 10). -/
def fixDB8 : DB :=
  { products := [⟨1, "Widget", "", 10, 8, "geral"⟩], orders := [],
    productCounter := 1, orderCounter := 0 }

/-- Request referencing product 1 twice in the same order. -/
def fixReqDup : OrderRequest :=
  { customerId := "c1", customerName := "Cliente A", items := [⟨1, 1⟩, ⟨1, 1⟩] }

/-- Concrete store: one product with plenty of stock. -/
def fixDB100 : DB :=
  { products := [⟨1, "Widget", "", 10, 100, "geral"⟩], orders := [],
    productCounter := 1, orderCounter := 0 }

/-- Request with a single item: 2 units of product 1. -/
def fixReqSingle : OrderRequest :=
  { customerId := "c1", customerName := "Cliente A", items := [⟨1, 2⟩] }

/-- Request whose customer name has fewer than 3 characters. -/
def fixReqShortName : OrderRequest :=
  { customerId := "c1", customerName := "Al", items := [⟨1, 1⟩] }

/-- The order persisted by `createOrder fixDB100/fixDB8 _ fixReqSingle`
under the no-discount policy. -/
def fixOrderSingle : Order :=
  { id := 1, customerId := "c1", customerName := "Cliente A",
    items := [⟨1, 2, 10⟩], status := "PENDING", subtotal := 20, discount := 0, total := 20 }

/-- A pathological discount policy exceeding any subtotal in play. -/
def bigDiscount : Int → Int := fun _ => 1000

/-- The order persisted under the pathological policy. -/
def fixOrderClamped : Order :=
  { id := 1, customerId := "c1", customerName := "Cliente A",
    items := [⟨1, 2, 10⟩], status := "PENDING", subtotal := 20, discount := 1000, total := 0 }

/-- The store after creating `fixOrderSingle` from `fixDB100`. -/
def fixAfterCreate : DB :=
  (OrderFacade.createOrder fixDB100 NoDiscountStrategy.calculate fixReqSingle).1

/-- The partial update renaming the product. -/
def fixRename : ProductUpdateData := { name := some "Gadget" }

/-- Products list after the create, before and after the rename, and the
single persisted order item, spelled out for the C6 witness. -/
def fixPS6 : List Product := [⟨1, "Widget", "", 10, 98, "geral"⟩]

def fixPS6b : List Product := [⟨1, "Gadget", "", 10, 98, "geral"⟩]

def fixP6b : Product := ⟨1, "Gadget", "", 10, 98, "geral"⟩

def fixItem : OrderItem := ⟨1, 2, 10⟩

/-- A sample event for the notification-bus witnesses. -/
def fixEvent : Event := .productLowStock ⟨1, "Widget", "", 10, 8, "geral"⟩

/-- A listener whose handler succeeds. -/
def obsA : Observer := { ref := 1, update := fun _ => .ok () }

/-- A listener whose handler throws. -/
def obsB : Observer := { ref := 2, update := fun _ => .error "boom" }

/-- Another listener whose handler succeeds, attached after the failing
one. -/
def obsC : Observer := { ref := 3, update := fun _ => .ok () }

/-- An empty bus. -/
def subjEmpty : EventSubject := { observers := [] }

/-- A bus with the three listeners attached in order. -/
def subjABC : EventSubject := { observers := [obsA, obsB, obsC] }

/-- A store already holding a product named "Widget". -/
def fixDBW : DB :=
  { products := [⟨1, "Widget", "", 10, 5, "geral"⟩], orders := [],
    productCounter := 1, orderCounter := 0 }

/-- A creation request whose name collides case-insensitively. -/
def fixPReq : ProductRequest :=
  { name := "WIDGET", description := none, price := some 10, stock := some 5,
    category := "geral" }

/-- An order already COMPLETED, its store, and a statistics state that
already counted it once. -/
def fixOrderDone : Order :=
  { id := 1, customerId := "c1", customerName := "Cliente A",
    items := [⟨1, 2, 10⟩], status := "COMPLETED", subtotal := 20, discount := 0, total := 20 }

def fixDBDone : DB :=
  { products := [], orders := [fixOrderDone], productCounter := 0, orderCounter := 1 }

def fixStats : Statistics :=
  { ordersCreated := 1, ordersCompleted := 1, ordersCancelled := 0,
    totalRevenue := 20, lowStockAlerts := 0 }

theorem findProduct_id {ps : List Product} {pid : Nat} {p : Product}
    (h : findProduct ps pid = some p) : p.id = pid := by
  unfold findProduct at h
  simpa using List.find?_some h

theorem findProduct_set_ne {ps : List Product} {pid0 pid : Nat} {q : Product}
    (hq : q.id = pid0) (h : pid ≠ pid0) :
    findProduct (setProduct ps pid0 q) pid = findProduct ps pid := by
  unfold findProduct setProduct
  rw [List.find?_map]
  have hpr : ((fun p : Product => p.id == pid) ∘ (fun x : Product => if x.id == pid0 then q else x))
      = (fun p : Product => p.id == pid) := by
    funext x
    by_cases hx : x.id = pid0
    · simp [hx, hq, Ne.symm h]
    · simp [hx]
  rw [hpr]
  cases hf : ps.find? (fun p => p.id == pid) with
  | none => rfl
  | some y =>
    have hy : y.id = pid := by simpa using List.find?_some hf
    have : (y.id == pid0) = false := by simp [hy, h]
    simp [this]
    intro hc
    exact absurd (hy ▸ hc) h

theorem findProduct_set_eq {ps : List Product} {pid0 : Nat} {q : Product}
    (hq : q.id = pid0) :
    findProduct (setProduct ps pid0 q) pid0 = (findProduct ps pid0).map (fun _ => q) := by
  unfold findProduct setProduct
  rw [List.find?_map]
  have hpr : ((fun p : Product => p.id == pid0) ∘ (fun x : Product => if x.id == pid0 then q else x))
      = (fun p : Product => p.id == pid0) := by
    funext x
    by_cases hx : x.id = pid0
    · simp [hx, hq]
    · simp [hx]
  rw [hpr]
  cases hf : ps.find? (fun p => p.id == pid0) with
  | none => rfl
  | some y =>
    have hy : y.id = pid0 := by simpa using List.find?_some hf
    simp [hy]

theorem stockAt_set_ne {ps : List Product} {pid0 pid : Nat} {q : Product}
    (hq : q.id = pid0) (h : pid ≠ pid0) :
    stockAt (setProduct ps pid0 q) pid = stockAt ps pid := by
  simp [stockAt, findProduct_set_ne hq h]

theorem stockAt_set_eq {ps : List Product} {pid0 : Nat} {q : Product}
    (hq : q.id = pid0) :
    stockAt (setProduct ps pid0 q) pid0 = (stockAt ps pid0).map (fun _ => q.stock) := by
  rw [stockAt, findProduct_set_eq hq, stockAt, Option.map_map]
  cases findProduct ps pid0 <;> rfl

theorem findOrder_setOrder_self {os : List Order} {oid : Nat} {o : Order}
    (h : o.id = oid) : findOrder (setOrder os oid o) oid = some o := by
  unfold findOrder setOrder
  by_cases hany : os.any (fun q => q.id == oid)
  · rw [if_pos hany, List.find?_map]
    have hpr : ((fun x : Order => x.id == oid) ∘ (fun x : Order => if x.id == oid then o else x))
        = (fun x : Order => x.id == oid) := by
      funext x
      by_cases hx : x.id = oid
      · simp [hx, h]
      · simp [hx]
    rw [hpr]
    obtain ⟨x, hx, hpx⟩ := List.any_eq_true.mp hany
    have hsome : (os.find? (fun q => q.id == oid)).isSome := List.find?_isSome.mpr ⟨x, hx, hpx⟩
    cases hf : os.find? (fun q => q.id == oid) with
    | none => rw [hf] at hsome; simp at hsome
    | some y =>
      have hy : y.id = oid := by simpa using List.find?_some hf
      simp [hy]
  · rw [if_neg hany, List.find?_append]
    have hnone : os.find? (fun q => q.id == oid) = none := by
      rw [List.find?_eq_none]
      intro x hx hpx
      exact hany (List.any_eq_true.mpr ⟨x, hx, hpx⟩)
    simp [hnone, List.find?_cons, h]

theorem reqQty_eq_zero {its : List RequestItem} {pid : Nat}
    (h : ∀ it ∈ its, it.productId ≠ pid) : reqQty its pid = 0 := by
  induction its with
  | nil => rfl
  | cons it rest ih =>
    have h1 : it.productId ≠ pid := h it (by simp)
    simp only [reqQty, if_neg h1, zero_add]
    exact ih (fun x hx => h x (by simp [hx]))

theorem itemQty_append (l1 l2 : List OrderItem) (pid : Nat) :
    itemQty (l1 ++ l2) pid = itemQty l1 pid + itemQty l2 pid := by
  induction l1 with
  | nil => simp [itemQty]
  | cons it rest ih =>
    rw [List.cons_append]
    simp only [itemQty]
    rw [ih]
    ring

theorem addItem_items (o : Order) (p : Product) (q : Int) :
    (o.addItem p q).items = o.items ++ [{ productRef := p.id, quantity := q, unitPrice := p.price }] := rfl

theorem addItem_status (o : Order) (p : Product) (q : Int) :
    (o.addItem p q).status = o.status := rfl

theorem processItems_status {its : List RequestItem} {ps : List Product} {o : Order}
    {ps2 : List Product} {evs : List Event} {o2 : Order}
    (h : processItems its ps o = (ps2, evs, .ok o2)) : o2.status = o.status := by
  induction its generalizing ps o ps2 evs o2 with
  | nil =>
    simp only [processItems, Prod.mk.injEq, Except.ok.injEq] at h
    rw [← h.2.2]
  | cons it rest ih =>
    simp only [processItems] at h
    split at h
    · simp at h
    · rename_i p hf
      split at h
      · rename_i hs
        rcases hrec : processItems rest
            (setProduct ps p.id
              { id := p.id, name := p.name, description := p.description, price := p.price,
                stock := p.stock - it.quantity, category := p.category })
            (o.addItem p it.quantity) with ⟨psR, evsR, resR⟩
        rw [hrec] at h
        simp only [Prod.mk.injEq] at h
        cases resR with
        | error e => exact absurd h.2.2 (by simp)
        | ok oR =>
          have hoR : oR = o2 := by simpa using h.2.2
          subst hoR
          rw [ih hrec, addItem_status]
      · simp at h

theorem processItems_stock {its : List RequestItem} {ps : List Product} {o : Order}
    {ps2 : List Product} {evs : List Event} {o2 : Order}
    (h : processItems its ps o = (ps2, evs, .ok o2)) (pid : Nat) :
    stockAt ps2 pid = (stockAt ps pid).map (fun s => s - reqQty its pid) := by
  induction its generalizing ps o ps2 evs o2 with
  | nil =>
    simp only [processItems, Prod.mk.injEq] at h
    rw [← h.1]
    simp only [reqQty]
    cases stockAt ps pid <;> simp
  | cons it rest ih =>
    simp only [processItems] at h
    split at h
    · simp at h
    · rename_i p hf
      split at h
      · rename_i hs
        rcases hrec : processItems rest
            (setProduct ps p.id
              { id := p.id, name := p.name, description := p.description, price := p.price,
                stock := p.stock - it.quantity, category := p.category })
            (o.addItem p it.quantity) with ⟨psR, evsR, resR⟩
        rw [hrec] at h
        simp only [Prod.mk.injEq] at h
        cases resR with
        | error e => exact absurd h.2.2 (by simp)
        | ok oR =>
          have hps : psR = ps2 := h.1
          subst hps
          have hpid : p.id = it.productId := findProduct_id hf
          have ihs := ih hrec
          by_cases hpp : pid = it.productId
          · rw [hpp, ← hpid] at ihs ⊢
            rw [← hpid] at hf
            have hset : stockAt (setProduct ps p.id
                { id := p.id, name := p.name, description := p.description, price := p.price,
                  stock := p.stock - it.quantity, category := p.category }) p.id
                = (stockAt ps p.id).map (fun _ => p.stock - it.quantity) :=
              stockAt_set_eq rfl
            rw [hset] at ihs
            have hstock : stockAt ps p.id = some p.stock := by
              rw [stockAt, hf]; rfl
            rw [hstock] at ihs ⊢
            simp only [Option.map_some'] at ihs ⊢
            rw [ihs]
            rw [reqQty, if_pos hpid.symm]
            congr 1
            ring
          · have hne : pid ≠ p.id := fun hc => hpp (hc.trans hpid)
            have hset : stockAt (setProduct ps p.id
                { id := p.id, name := p.name, description := p.description, price := p.price,
                  stock := p.stock - it.quantity, category := p.category }) pid
                = stockAt ps pid := stockAt_set_ne rfl hne
            rw [hset] at ihs
            rw [ihs]
            have hz : (if it.productId = pid then it.quantity else 0) = 0 :=
              if_neg (Ne.symm hpp)
            rw [reqQty, hz, zero_add]
      · simp at h

theorem processItems_itemQty {its : List RequestItem} {ps : List Product} {o : Order}
    {ps2 : List Product} {evs : List Event} {o2 : Order}
    (h : processItems its ps o = (ps2, evs, .ok o2)) (pid : Nat) :
    itemQty o2.items pid = itemQty o.items pid + reqQty its pid := by
  induction its generalizing ps o ps2 evs o2 with
  | nil =>
    simp only [processItems, Prod.mk.injEq, Except.ok.injEq] at h
    rw [← h.2.2]
    simp [reqQty]
  | cons it rest ih =>
    simp only [processItems] at h
    split at h
    · simp at h
    · rename_i p hf
      split at h
      · rename_i hs
        rcases hrec : processItems rest
            (setProduct ps p.id
              { id := p.id, name := p.name, description := p.description, price := p.price,
                stock := p.stock - it.quantity, category := p.category })
            (o.addItem p it.quantity) with ⟨psR, evsR, resR⟩
        rw [hrec] at h
        simp only [Prod.mk.injEq] at h
        cases resR with
        | error e => exact absurd h.2.2 (by simp)
        | ok oR =>
          have hoR : oR = o2 := by simpa using h.2.2
          subst hoR
          have hpid : p.id = it.productId := findProduct_id hf
          rw [ih hrec, addItem_items, itemQty_append]
          simp only [itemQty, reqQty, hpid]
          ring
      · simp at h

theorem recalculateTotal_subtotal (o : Order) :
    (Order.recalculateTotal o).subtotal = itemsSubtotal (Order.recalculateTotal o).items := rfl

theorem processItems_subtotal {its : List RequestItem} {ps : List Product} {o : Order}
    {ps2 : List Product} {evs : List Event} {o2 : Order}
    (h : processItems its ps o = (ps2, evs, .ok o2))
    (hinv : o.subtotal = itemsSubtotal o.items) :
    o2.subtotal = itemsSubtotal o2.items := by
  induction its generalizing ps o ps2 evs o2 with
  | nil =>
    simp only [processItems, Prod.mk.injEq, Except.ok.injEq] at h
    rw [← h.2.2]
    exact hinv
  | cons it rest ih =>
    simp only [processItems] at h
    split at h
    · simp at h
    · rename_i p hf
      split at h
      · rename_i hs
        rcases hrec : processItems rest
            (setProduct ps p.id
              { id := p.id, name := p.name, description := p.description, price := p.price,
                stock := p.stock - it.quantity, category := p.category })
            (o.addItem p it.quantity) with ⟨psR, evsR, resR⟩
        rw [hrec] at h
        simp only [Prod.mk.injEq] at h
        cases resR with
        | error e => exact absurd h.2.2 (by simp)
        | ok oR =>
          have hoR : oR = o2 := by simpa using h.2.2
          subst hoR
          exact ih hrec (recalculateTotal_subtotal _)
      · simp at h

theorem processItems_append {l1 l2 : List RequestItem} {ps : List Product} {o : Order}
    {ps2 : List Product} {evs : List Event} {o2 : Order}
    (h : processItems (l1 ++ l2) ps o = (ps2, evs, .ok o2)) :
    ∃ ps1 evs1 o1 evs2, processItems l1 ps o = (ps1, evs1, .ok o1) ∧
      processItems l2 ps1 o1 = (ps2, evs2, .ok o2) ∧ evs = evs1 ++ evs2 := by
  induction l1 generalizing ps o evs with
  | nil => exact ⟨ps, [], o, evs, rfl, by simpa using h, rfl⟩
  | cons it rest ih =>
    rw [List.cons_append] at h
    simp only [processItems] at h
    split at h
    · simp at h
    · rename_i p hf
      split at h
      · rename_i hs
        rcases hrec : processItems (rest ++ l2)
            (setProduct ps p.id
              { id := p.id, name := p.name, description := p.description, price := p.price,
                stock := p.stock - it.quantity, category := p.category })
            (o.addItem p it.quantity) with ⟨psR, evsR, resR⟩
        rw [hrec] at h
        simp only [Prod.mk.injEq] at h
        cases resR with
        | error e => exact absurd h.2.2 (by simp)
        | ok oR =>
          have hoR : oR = o2 := by simpa using h.2.2
          subst hoR
          have hps : psR = ps2 := h.1
          subst hps
          obtain ⟨ps1, evs1, o1, evs2, h1, h2, hevs⟩ := ih hrec
          refine ⟨ps1, (if p.stock - it.quantity < 10 then
              [Event.productLowStock
                { id := p.id, name := p.name, description := p.description, price := p.price,
                  stock := p.stock - it.quantity, category := p.category }]
            else []) ++ evs1, o1, evs2, ?_, h2, ?_⟩
          · simp only [processItems, hf, if_pos hs, h1]
          · rw [← h.2.1, hevs, List.append_assoc]
      · simp at h

theorem lowStockEvents_append (l1 l2 : List Event) (pid : Nat) :
    lowStockEvents (l1 ++ l2) pid = lowStockEvents l1 pid ++ lowStockEvents l2 pid := by
  simp [lowStockEvents, List.filterMap_append]

theorem processItems_noRef {its : List RequestItem} {ps : List Product} {o : Order}
    {ps2 : List Product} {evs : List Event} {o2 : Order} {pid : Nat}
    (h : processItems its ps o = (ps2, evs, .ok o2))
    (hno : ∀ it ∈ its, it.productId ≠ pid) :
    lowStockEvents evs pid = [] := by
  induction its generalizing ps o ps2 evs o2 with
  | nil =>
    simp only [processItems, Prod.mk.injEq] at h
    rw [← h.2.1]
    rfl
  | cons it rest ih =>
    simp only [processItems] at h
    split at h
    · simp at h
    · rename_i p hf
      split at h
      · rename_i hs
        rcases hrec : processItems rest
            (setProduct ps p.id
              { id := p.id, name := p.name, description := p.description, price := p.price,
                stock := p.stock - it.quantity, category := p.category })
            (o.addItem p it.quantity) with ⟨psR, evsR, resR⟩
        rw [hrec] at h
        simp only [Prod.mk.injEq] at h
        cases resR with
        | error e => exact absurd h.2.2 (by simp)
        | ok oR =>
          have hpid : p.id = it.productId := findProduct_id hf
          have hne : p.id ≠ pid := by
            rw [hpid]; exact hno it (by simp)
          have hR : lowStockEvents evsR pid = [] :=
            ih hrec (fun x hx => hno x (by simp [hx]))
          rw [← h.2.1, lowStockEvents_append, hR]
          have hhead : lowStockEvents (if p.stock - it.quantity < 10 then
              [Event.productLowStock
                { id := p.id, name := p.name, description := p.description, price := p.price,
                  stock := p.stock - it.quantity, category := p.category }]
            else []) pid = [] := by
            split
            · simp [lowStockEvents, lowStockFor, hne]
            · rfl
          rw [hhead]
          rfl
      · simp at h

theorem restoreItems_stock (items : List OrderItem) (ps : List Product) (pid : Nat) :
    stockAt (restoreItems items ps) pid
      = (stockAt ps pid).map (fun s => s + itemQty items pid) := by
  induction items generalizing ps with
  | nil =>
    simp only [restoreItems, itemQty]
    cases stockAt ps pid <;> simp
  | cons it rest ih =>
    simp only [restoreItems]
    cases hf : findProduct ps it.productRef with
    | none =>
      rw [ih]
      by_cases hpp : it.productRef = pid
      · have hnone : stockAt ps pid = none := by
          rw [stockAt, ← hpp, hf]; rfl
        rw [hnone]; rfl
      · rw [itemQty, if_neg hpp, zero_add]
    | some p =>
      have hpid : p.id = it.productRef := findProduct_id hf
      rw [ih]
      by_cases hpp : it.productRef = pid
      · subst hpp
        have hf2 : findProduct ps p.id = some p := by rw [hpid]; exact hf
        have hset : stockAt (setProduct ps p.id (p.increaseStock it.quantity)) p.id
            = (stockAt ps p.id).map (fun _ => p.stock + it.quantity) :=
          stockAt_set_eq rfl
        have hstock : stockAt ps p.id = some p.stock := by rw [stockAt, hf2]; rfl
        rw [← hpid, hset, hstock]
        simp only [Option.map_some']
        rw [itemQty, if_pos hpid.symm]
        congr 1
        ring
      · have hne : pid ≠ p.id := fun hc => hpp (hc.trans hpid).symm
        have hset : stockAt (setProduct ps p.id (p.increaseStock it.quantity)) pid
            = stockAt ps pid := stockAt_set_ne rfl hne
        rw [hset, itemQty, if_neg hpp, zero_add]

theorem applyDiscount_status (o : Order) (d : Int) : (o.applyDiscount d).status = o.status := rfl

theorem applyDiscount_items (o : Order) (d : Int) : (o.applyDiscount d).items = o.items := rfl

theorem applyDiscount_spec (o : Order) (d : Int) :
    (o.applyDiscount d).total = max 0 ((o.applyDiscount d).subtotal - (o.applyDiscount d).discount) ∧
    (o.applyDiscount d).subtotal = itemsSubtotal (o.applyDiscount d).items ∧
    (o.applyDiscount d).discount = d :=
  ⟨rfl, rfl, rfl⟩

theorem createOrder_ok_elim {db : DB} {strat : Int → Int} {req : OrderRequest}
    {db1 : DB} {evs : List Event} {o : Order}
    (h : OrderFacade.createOrder db strat req = (db1, evs, .ok o)) :
    ∃ ps1 evs1 o1,
      processItems req.items db.products (Order.new req.customerId req.customerName)
        = (ps1, evs1, .ok o1) ∧
      o = { o1.applyDiscount (strat o1.subtotal) with id := db.orderCounter + 1 } ∧
      db1 = { db with products := ps1,
                      orders := setOrder db.orders (db.orderCounter + 1) o,
                      orderCounter := db.orderCounter + 1 } ∧
      evs = evs1 ++ [.orderCreated o] := by
  unfold OrderFacade.createOrder at h
  split at h
  · simp at h
  · split at h
    · simp at h
    · rcases hrec : processItems req.items db.products
          (Order.new req.customerId req.customerName) with ⟨psR, evsR, resR⟩
      rw [hrec] at h
      cases resR with
      | error e => simp at h
      | ok oR =>
        simp only [OrderRepository.create, Prod.mk.injEq] at h
        obtain ⟨hdb, hevs, ho⟩ := h
        have ho2 : { oR.applyDiscount (strat oR.subtotal) with id := db.orderCounter + 1 } = o := by
          simpa using ho
        refine ⟨psR, evsR, oR, rfl, ho2.symm, ?_, ?_⟩
        · rw [← hdb, ← ho2]
        · rw [← hevs, ← ho2]

theorem processItems_single_ref {pre post : List RequestItem} {it0 : RequestItem}
    {ps : List Product} {o : Order} {ps2 : List Product} {evs : List Event} {o2 : Order}
    {pid : Nat}
    (h : processItems (pre ++ it0 :: post) ps o = (ps2, evs, .ok o2))
    (hpre : ∀ it ∈ pre, it.productId ≠ pid) (hpost : ∀ it ∈ post, it.productId ≠ pid)
    (hit : it0.productId = pid) (hq : 1 ≤ it0.quantity)
    (hstock : stockAt ps pid = some 8) :
    lowStockEvents evs pid = [8 - it0.quantity] := by
  obtain ⟨ps1, evs1, o1, evs2, h1, h2, hevs⟩ := processItems_append h
  have he1 : lowStockEvents evs1 pid = [] := processItems_noRef h1 hpre
  have hs1 : stockAt ps1 pid = some 8 := by
    rw [processItems_stock h1 pid, reqQty_eq_zero hpre, hstock]
    simp
  simp only [processItems] at h2
  split at h2
  · simp at h2
  · rename_i p hf2
    have hpstock : p.stock = 8 := by
      rw [hit] at hf2
      rw [stockAt, hf2] at hs1
      simpa using hs1
    split at h2
    · rename_i hsk
      rcases hrec : processItems post
          (setProduct ps1 p.id
            { id := p.id, name := p.name, description := p.description, price := p.price,
              stock := p.stock - it0.quantity, category := p.category })
          (o1.addItem p it0.quantity) with ⟨psR, evsR, resR⟩
      rw [hrec] at h2
      simp only [Prod.mk.injEq] at h2
      cases resR with
      | error e => exact absurd h2.2.2 (by simp)
      | ok oR =>
        have hR : lowStockEvents evsR pid = [] :=
          processItems_noRef hrec hpost
        have hlow : p.stock - it0.quantity < 10 := by
          rw [hpstock]; omega
        have hpid : p.id = pid := by rw [findProduct_id hf2, hit]
        rw [hevs, ← h2.2.1, lowStockEvents_append, he1, if_pos hlow,
          lowStockEvents_append, hR]
        simp [lowStockEvents, lowStockFor, hpid, hpstock]
    · simp at h2

/-- C2: for every valid create request and every discount amount returned
by the active policy (including one exceeding the subtotal), the
persisted order satisfies `total = max 0 (subtotal - discount)`,
`subtotal = Σ quantity * captured unit price`, and the stored discount is
the policy's value at the order's subtotal. -/
theorem claim2_total_clamped {db : DB} {strat : Int → Int} {req : OrderRequest} {o : Order}
    (h : okOrder (OrderFacade.createOrder db strat req).2.2 = some o) :
    o.total = max 0 (o.subtotal - o.discount) ∧
    o.subtotal = itemsSubtotal o.items ∧
    o.discount = strat o.subtotal := by
  rcases hr : OrderFacade.createOrder db strat req with ⟨db1, evs, res⟩
  rw [hr] at h
  cases res with
  | error e => simp [okOrder] at h
  | ok oX =>
    have hx : oX = o := by simpa [okOrder] using h
    subst hx
    obtain ⟨ps1, evs1, o1, h1, ho, _, _⟩ := createOrder_ok_elim hr
    have hsub : o1.subtotal = itemsSubtotal o1.items :=
      processItems_subtotal h1 rfl
    subst ho
    refine ⟨rfl, rfl, ?_⟩
    show strat o1.subtotal = strat (itemsSubtotal o1.items)
    rw [hsub]

/-- C4: an order successfully created and then immediately cancelled
restores every product's stock: cancellation succeeds, and for every
product id the stock after `cancelOrder` equals the stock before
`createOrder` (each referenced product still exists and got back exactly
the ordered quantity). -/
theorem claim4_create_cancel_roundtrip {db : DB} {strat : Int → Int} {req : OrderRequest}
    {o : Order}
    (h : okOrder (OrderFacade.createOrder db strat req).2.2 = some o) :
    okB (OrderFacade.cancelOrder (OrderFacade.createOrder db strat req).1 o.id).2.2 = true ∧
    ∀ pid : Nat,
      stockAt (OrderFacade.cancelOrder (OrderFacade.createOrder db strat req).1 o.id).1.products pid
        = stockAt db.products pid := by
  rcases hr : OrderFacade.createOrder db strat req with ⟨db1, evs, res⟩
  rw [hr] at h
  cases res with
  | error e => simp [okOrder] at h
  | ok oX =>
    have hx : oX = o := by simpa [okOrder] using h
    subst hx
    obtain ⟨ps1, evs1, o1, h1, ho, hdb1, hevs⟩ := createOrder_ok_elim hr
    have hid : oX.id = db.orderCounter + 1 := by rw [ho]
    have hfindO : findOrder db1.orders oX.id = some oX := by
      rw [hdb1, hid]
      exact findOrder_setOrder_self hid
    have hstatus : oX.status = "PENDING" := by
      rw [ho]
      show (o1.applyDiscount (strat o1.subtotal)).status = "PENDING"
      rw [applyDiscount_status]
      exact processItems_status h1
    have hcan : oX.canBeCancelled = true := by
      rw [Order.canBeCancelled, hstatus]
      rfl
    have hcancel : OrderFacade.cancelOrder db1 oX.id =
        ({ db1 with products := restoreItems oX.items db1.products,
                    orders := setOrder db1.orders oX.id { oX with status := "CANCELLED" } },
         [.orderCancelled { oX with status := "CANCELLED" }],
         .ok { oX with status := "CANCELLED" }) := by
      simp [OrderFacade.cancelOrder, hfindO, hcan]
    constructor
    · show okB (OrderFacade.cancelOrder db1 oX.id).2.2 = true
      rw [hcancel]
      rfl
    · intro pid
      show stockAt (OrderFacade.cancelOrder db1 oX.id).1.products pid = stockAt db.products pid
      rw [hcancel]
      show stockAt (restoreItems oX.items db1.products) pid = stockAt db.products pid
      rw [restoreItems_stock]
      have hitems : oX.items = o1.items := by rw [ho]; rfl
      have hqty : itemQty oX.items pid = reqQty req.items pid := by
        rw [hitems]
        have hh := processItems_itemQty h1 pid
        have h0 : itemQty (Order.new req.customerId req.customerName).items pid = 0 := rfl
        rw [h0, zero_add] at hh
        exact hh
      have hps1 : db1.products = ps1 := by rw [hdb1]
      rw [hps1, processItems_stock h1 pid, hqty]
      cases hdbs : stockAt db.products pid with
      | none => rfl
      | some v =>
        simp only [Option.map_some']
        congr 1
        ring

/-- C5 (amended): a product stored with stock 8 (below the threshold 10)
that a successful `createOrder` request references in exactly ONE item
(quantity ≥ 1) gets exactly one low-stock event, carrying the
post-decrement stock value `8 - quantity` taken at the moment that item
was processed, and all item events precede the final order-created
event. -/
theorem claim5_low_stock_single_reference {db : DB} {strat : Int → Int} {req : OrderRequest}
    {o : Order} {pid : Nat} {pre post : List RequestItem} {it0 : RequestItem}
    (h : okOrder (OrderFacade.createOrder db strat req).2.2 = some o)
    (hsplit : req.items = pre ++ it0 :: post)
    (hpre : ∀ it ∈ pre, it.productId ≠ pid) (hpost : ∀ it ∈ post, it.productId ≠ pid)
    (hit : it0.productId = pid) (hq : 1 ≤ it0.quantity)
    (hstock : stockAt db.products pid = some 8) :
    lowStockEvents (OrderFacade.createOrder db strat req).2.1 pid = [8 - it0.quantity] ∧
    (OrderFacade.createOrder db strat req).2.1.getLast? = some (.orderCreated o) := by
  rcases hr : OrderFacade.createOrder db strat req with ⟨db1, evs, res⟩
  rw [hr] at h
  cases res with
  | error e => simp [okOrder] at h
  | ok oX =>
    have hx : oX = o := by simpa [okOrder] using h
    subst hx
    obtain ⟨ps1, evs1, o1, h1, ho, hdb1, hevs⟩ := createOrder_ok_elim hr
    rw [hsplit] at h1
    have hls := processItems_single_ref h1 hpre hpost hit hq hstock
    constructor
    · show lowStockEvents evs pid = [8 - it0.quantity]
      rw [hevs, lowStockEvents_append, hls]
      simp [lowStockEvents, lowStockFor]
    · show evs.getLast? = some (.orderCreated oX)
      rw [hevs]
      exact List.getLast?_concat _

theorem validateItems_nil {its : List RequestItem}
    (h : ∀ it ∈ its, it.productId ≠ 0 ∧ 0 < it.quantity) (idx : Nat) :
    validateItems idx its = [] := by
  induction its generalizing idx with
  | nil => rfl
  | cons it rest ih =>
    obtain ⟨h1, h2⟩ := h it (by simp)
    simp only [validateItems, validateItem, if_neg h1, if_neg (not_le.mpr h2),
      List.nil_append, List.append_nil]
    exact ih (fun x hx => h x (by simp [hx])) (idx + 1)

/-- C3 (amended): `OrderService.createOrder` throws a ValidationError
joining ALL collected violations (not just the first) whenever the
validator finds any, and a request with a truthy customer id, a customer
name that is non-blank and at least 3 characters long, and a non-empty
item list whose items all carry a non-zero product id and a positive
(integer) quantity passes validation and is handed to the facade's
product lookup and stock checks. -/
theorem claim3_validation_gate (db : DB) (strat : Int → Int) (req : OrderRequest) :
    (OrderValidationStrategy.validate req ≠ [] →
      OrderService.createOrder db strat req =
        (db, [], .error ("Validation failed: " ++
          String.intercalate ", " (OrderValidationStrategy.validate req)))) ∧
    (req.customerId ≠ "" → (strTrim req.customerName).length ≠ 0 →
      ¬ req.customerName.length < 3 → req.items ≠ [] →
      (∀ it ∈ req.items, it.productId ≠ 0 ∧ 0 < it.quantity) →
      OrderValidationStrategy.validate req = [] ∧
      OrderService.createOrder db strat req = OrderFacade.createOrder db strat req) := by
  constructor
  · intro hne
    have hb : (OrderValidationStrategy.validate req).isEmpty = false := by
      cases hv : OrderValidationStrategy.validate req with
      | nil => exact absurd hv hne
      | cons a t => rfl
    simp [OrderService.createOrder, hb]
  · intro h1 h2 h3 h4 h5
    have hv : OrderValidationStrategy.validate req = [] := by
      unfold OrderValidationStrategy.validate
      have hname : ¬ (req.customerName = "" ∨ (strTrim req.customerName).length = 0) := by
        rintro (hc | hc)
        · exact h2 (by rw [hc]; rfl)
        · exact h2 hc
      rw [if_neg h1, if_neg hname, if_neg h3, if_neg h4, validateItems_nil h5 0]
      rfl
    refine ⟨hv, ?_⟩
    simp [OrderService.createOrder, hv]

theorem Product.update_id (p : Product) (d : ProductUpdateData) : (p.update d).id = p.id := by
  unfold Product.update
  repeat' split
  all_goals rfl

/-- C6 (amended): after any successful product update, every order
item's captured fields are untouched — quantity, captured unit price,
per-item subtotal and the referenced product id all read back unchanged —
but the product NAME reported by `OrderItem.toJSON` is resolved through
the live product reference: for an item referencing the updated product
it reads the product's post-update name, not a snapshot taken at order
time. -/
theorem claim6_capture_after_update {ps : List Product} {pid : Nat} {d : ProductUpdateData}
    {ps2 : List Product} {p2 : Product}
    (h : ProductRepository.update ps pid d = some (ps2, p2)) (it : OrderItem) :
    (OrderItem.toJSON ps2 it).quantity = it.quantity ∧
    (OrderItem.toJSON ps2 it).unitPrice = it.unitPrice ∧
    (OrderItem.toJSON ps2 it).subtotal = it.quantity * it.unitPrice ∧
    (OrderItem.toJSON ps2 it).productId = it.productRef ∧
    (OrderItem.toJSON ps2 it).productName =
      (if it.productRef = pid then p2.name else (OrderItem.toJSON ps it).productName) := by
  unfold ProductRepository.update at h
  cases hf : findProduct ps pid with
  | none => rw [hf] at h; simp at h
  | some p =>
    rw [hf] at h
    simp only [Option.some.injEq, Prod.mk.injEq] at h
    obtain ⟨hps2, hp2⟩ := h
    have hup : (p.update d).id = pid := by
      rw [Product.update_id]
      exact findProduct_id hf
    refine ⟨rfl, rfl, rfl, rfl, ?_⟩
    by_cases hpp : it.productRef = pid
    · rw [if_pos hpp]
      show ((findProduct ps2 it.productRef).map Product.name).getD "" = p2.name
      rw [hpp, ← hps2, findProduct_set_eq hup, hf]
      rw [← hp2]
      rfl
    · rw [if_neg hpp]
      show ((findProduct ps2 it.productRef).map Product.name).getD ""
          = ((findProduct ps it.productRef).map Product.name).getD ""
      rw [← hps2, findProduct_set_ne hup hpp]

/-- C7: attaching the same listener instance twice is a no-op — the
second `attach` returns the bus unchanged — and after the two attach
calls every published event is delivered to that listener exactly once
(given the reachable-state invariant that the bus holds the instance at
most once beforehand). -/
theorem claim7_attach_idempotent (s : EventSubject) (o : Observer) (e : Event)
    (hcount : s.observers.countP (fun q => q.ref == o.ref) ≤ 1) :
    EventSubject.attach (EventSubject.attach s o) o = EventSubject.attach s o ∧
    (EventSubject.notify (EventSubject.attach (EventSubject.attach s o) o) e).countP
        (fun d => d.1 == o.ref) = 1 := by
  have hone : (EventSubject.attach s o).observers.countP (fun q => q.ref == o.ref) = 1 := by
    unfold EventSubject.attach
    by_cases hany : s.observers.any (fun q => q.ref == o.ref)
    · rw [if_pos hany]
      obtain ⟨x, hx, hpx⟩ := List.any_eq_true.mp hany
      have hpos : 0 < s.observers.countP (fun q => q.ref == o.ref) :=
        List.countP_pos_iff.mpr ⟨x, hx, hpx⟩
      omega
    · rw [if_neg hany]
      have hzero : s.observers.countP (fun q => q.ref == o.ref) = 0 := by
        rw [List.countP_eq_zero]
        intro x hx hpx
        exact hany (List.any_eq_true.mpr ⟨x, hx, hpx⟩)
      simp [List.countP_append, hzero, List.countP_cons]
  have hidem : EventSubject.attach (EventSubject.attach s o) o = EventSubject.attach s o := by
    have hany2 : (EventSubject.attach s o).observers.any (fun q => q.ref == o.ref) = true := by
      rw [List.any_eq_true]
      have : 0 < (EventSubject.attach s o).observers.countP (fun q => q.ref == o.ref) := by
        rw [hone]; omega
      obtain ⟨x, hx, hpx⟩ := List.countP_pos_iff.mp this
      exact ⟨x, hx, hpx⟩
    show (if (EventSubject.attach s o).observers.any (fun q => q.ref == o.ref) then _ else _) = _
    rw [if_pos hany2]
  refine ⟨hidem, ?_⟩
  rw [hidem]
  unfold EventSubject.notify
  rw [List.countP_map]
  exact hone

/-- C8: `notify` delivers the event to every currently attached listener
in attachment order (the delivery trace lists exactly the attached
identities, in order), and a listener that throws has the failure caught
— the traversal is a total function, the error never propagates, and
every listener attached after the failing one still receives the
event. -/
theorem claim8_notify_isolation (s : EventSubject) (e : Event) :
    ((EventSubject.notify s e).map Prod.fst = s.observers.map (fun o => o.ref)) ∧
    (∀ pre f post, s.observers = pre ++ f :: post →
      ∀ msg, f.update e = .error msg →
        ∀ o ∈ post, (o.ref, o.update e) ∈ EventSubject.notify s e) := by
  constructor
  · unfold EventSubject.notify
    rw [List.map_map]
    rfl
  · intro pre f post hsplit msg hfail o ho
    unfold EventSubject.notify
    refine List.mem_map_of_mem _ ?_
    rw [hsplit]
    exact List.mem_append_right _ (List.mem_cons_of_mem _ ho)

/-- C9 (implicit): product creation enforces case-insensitive name
uniqueness — when a product with the requested name already exists
(compared lower-cased), `createProduct` throws and the store is returned
unchanged. -/
theorem claim9_duplicate_name_rejected {db : DB} {r : ProductRequest}
    (hdup : existsByName db.products r.name = true) :
    (ProductService.createProduct db r).1 = db ∧
    okB (ProductService.createProduct db r).2 = false := by
  unfold ProductService.createProduct
  by_cases he : (ProductValidationStrategy.validate r).isEmpty
  · simp [he, hdup, okB]
  · simp [he, okB]

/-- C10 (implicit): the statistics collector never gates on the old
status — `updateOrderStatus(id, COMPLETED)` on an order that is ALREADY
COMPLETED succeeds, publishes a status-changed event whose old and new
status are both COMPLETED, and feeding that event to
`StatisticsObserver.update` increments the completed-orders counter and
adds the order's total to the running revenue once more. -/
theorem claim10_stats_double_count {db : DB} {oid : Nat} {o : Order} (s : Statistics)
    (hfind : findOrder db.orders oid = some o) (hst : o.status = "COMPLETED") :
    (OrderFacade.updateOrderStatus db oid "COMPLETED").2.2
        = .ok { o with status := "COMPLETED" } ∧
    (OrderFacade.updateOrderStatus db oid "COMPLETED").2.1
        = [.orderStatusChanged oid "COMPLETED" "COMPLETED" { o with status := "COMPLETED" }] ∧
    StatisticsObserver.update s
        (.orderStatusChanged oid "COMPLETED" "COMPLETED" { o with status := "COMPLETED" })
      = { s with ordersCompleted := s.ordersCompleted + 1,
                 totalRevenue := s.totalRevenue + o.total } := by
  have hvalid : Order.updateStatus o "COMPLETED" = .ok { o with status := "COMPLETED" } := rfl
  have hup : OrderFacade.updateOrderStatus db oid "COMPLETED" =
      ({ db with orders := setOrder db.orders oid { o with status := "COMPLETED" } },
       [.orderStatusChanged oid o.status "COMPLETED" { o with status := "COMPLETED" }],
       .ok { o with status := "COMPLETED" }) := by
    simp [OrderFacade.updateOrderStatus, hfind, hvalid]
  rw [hup, hst]
  exact ⟨rfl, rfl, rfl⟩

/-- C1: evaluation at the failing input — products 1 (stock 5) and 2
(stock 0); ordering [2 of product 1, 1 of product 2] throws
InsufficientStock on the second item, yet product 1's stock is left
decremented at 3 instead of the pre-call 5: the creation failed AND a
partial mutation persisted, contradicting the claimed atomicity. -/
theorem claim1_partial_mutation_on_failure :
    okB (OrderFacade.createOrder fixProducts1 NoDiscountStrategy.calculate fixReqTwoItems).2.2
      = false ∧
    stockAt (OrderFacade.createOrder fixProducts1 NoDiscountStrategy.calculate
      fixReqTwoItems).1.products 1 = some 3 ∧
    stockAt fixProducts1.products 1 = some 5 := by
  decide

/-- C3 counterexample: a request with non-empty customer id, non-empty
customer name and a positive-integer-quantity item list — satisfying
every premise of the claim — is still rejected with a ValidationError,
because the validator additionally requires at least 3 characters of
customer name. -/
theorem claim3_counterexample_short_name :
    fixReqShortName.customerId ≠ "" ∧ fixReqShortName.customerName ≠ "" ∧
    fixReqShortName.items ≠ [] ∧ (∀ it ∈ fixReqShortName.items, 0 < it.quantity) ∧
    OrderService.createOrder fixDB100 NoDiscountStrategy.calculate fixReqShortName =
      (fixDB100, [],
       .error "Validation failed: Nome do cliente deve ter no minimo 3 caracteres") := by
  decide

/-- C5 counterexample: with product 1 at stock 8, a successful
`createOrder` whose request references that product in TWO items
publishes TWO low-stock events for it (stocks 7 then 6), not exactly
one. -/
theorem claim5_counterexample_duplicate_reference :
    okB (OrderFacade.createOrder fixDB8 NoDiscountStrategy.calculate fixReqDup).2.2 = true ∧
    stockAt fixDB8.products 1 = some 8 ∧
    lowStockEvents (OrderFacade.createOrder fixDB8 NoDiscountStrategy.calculate fixReqDup).2.1 1
      = [7, 6] := by
  decide

/-- C6 counterexample: create an order for product 1 ("Widget"), then
rename the product to "Gadget" through the product update operation; the
persisted order's item now REPORTS the new name "Gadget" (the item holds
a live product reference, not a snapshot), contradicting the claim that
the reported product name is captured at order time.  Unit price and
subtotal do stay unchanged. -/
theorem claim6_counterexample_name_not_captured :
    okB (OrderFacade.createOrder fixDB100 NoDiscountStrategy.calculate fixReqSingle).2.2
      = true ∧
    ((findOrder fixAfterCreate.orders 1).map
        (fun o => o.items.map (fun it => (OrderItem.toJSON fixAfterCreate.products it).productName)))
      = some ["Widget"] ∧
    ((ProductRepository.update fixAfterCreate.products 1 fixRename).map
        (fun r => ((findOrder fixAfterCreate.orders 1).map
          (fun o => o.items.map (fun it => (OrderItem.toJSON r.1 it).productName)))))
      = some (some ["Gadget"]) := by
  decide

/-- C2 witness. -/
theorem claim2_total_clamped_witness :
    fixOrderClamped.total = max 0 (fixOrderClamped.subtotal - fixOrderClamped.discount) ∧
    fixOrderClamped.subtotal = itemsSubtotal fixOrderClamped.items ∧
    fixOrderClamped.discount = bigDiscount fixOrderClamped.subtotal :=
  have h : okOrder (OrderFacade.createOrder fixDB100 bigDiscount fixReqSingle).2.2
      = some fixOrderClamped := by decide
  claim2_total_clamped h

/-- C3 witness (for the positive direction of the amended claim). -/
theorem claim3_validation_gate_witness :
    OrderValidationStrategy.validate fixReqSingle = [] ∧
    OrderService.createOrder fixDB100 NoDiscountStrategy.calculate fixReqSingle =
      OrderFacade.createOrder fixDB100 NoDiscountStrategy.calculate fixReqSingle :=
  (claim3_validation_gate fixDB100 NoDiscountStrategy.calculate fixReqSingle).2
    (by decide) (by decide) (by decide) (by decide) (by decide)

/-- C4 witness. -/
theorem claim4_create_cancel_roundtrip_witness :
    okB (OrderFacade.cancelOrder
        (OrderFacade.createOrder fixDB100 NoDiscountStrategy.calculate fixReqSingle).1
        fixOrderSingle.id).2.2 = true ∧
    stockAt (OrderFacade.cancelOrder
        (OrderFacade.createOrder fixDB100 NoDiscountStrategy.calculate fixReqSingle).1
        fixOrderSingle.id).1.products 1
      = stockAt fixDB100.products 1 :=
  have h : okOrder (OrderFacade.createOrder fixDB100 NoDiscountStrategy.calculate
      fixReqSingle).2.2 = some fixOrderSingle := by decide
  ⟨(claim4_create_cancel_roundtrip h).1, (claim4_create_cancel_roundtrip h).2 1⟩

/-- C5 witness (for the amended claim, product at stock 8 referenced in
exactly one item of quantity 2: one event, carrying stock 6). -/
theorem claim5_low_stock_single_reference_witness :
    lowStockEvents (OrderFacade.createOrder fixDB8 NoDiscountStrategy.calculate
      fixReqSingle).2.1 1 = [6] ∧
    (OrderFacade.createOrder fixDB8 NoDiscountStrategy.calculate fixReqSingle).2.1.getLast?
      = some (.orderCreated fixOrderSingle) :=
  have h : okOrder (OrderFacade.createOrder fixDB8 NoDiscountStrategy.calculate
      fixReqSingle).2.2 = some fixOrderSingle := by decide
  have hsplit : fixReqSingle.items = [] ++ (⟨1, 2⟩ : RequestItem) :: [] := rfl
  have hpre : ∀ it ∈ ([] : List RequestItem), it.productId ≠ 1 := by decide
  have hpost : ∀ it ∈ ([] : List RequestItem), it.productId ≠ 1 := by decide
  have hit : (⟨1, 2⟩ : RequestItem).productId = 1 := rfl
  have hq : (1 : Int) ≤ (⟨1, 2⟩ : RequestItem).quantity := by decide
  have hstock : stockAt fixDB8.products 1 = some 8 := by decide
  have hres := claim5_low_stock_single_reference h hsplit hpre hpost hit hq hstock
  ⟨hres.1.trans (by decide), hres.2⟩

/-- C6 witness (for the amended claim). -/
theorem claim6_capture_after_update_witness :
    (OrderItem.toJSON fixPS6b fixItem).quantity = fixItem.quantity ∧
    (OrderItem.toJSON fixPS6b fixItem).unitPrice = fixItem.unitPrice ∧
    (OrderItem.toJSON fixPS6b fixItem).subtotal = fixItem.quantity * fixItem.unitPrice ∧
    (OrderItem.toJSON fixPS6b fixItem).productId = fixItem.productRef ∧
    (OrderItem.toJSON fixPS6b fixItem).productName =
      (if fixItem.productRef = 1 then fixP6b.name
       else (OrderItem.toJSON fixPS6 fixItem).productName) :=
  have h : ProductRepository.update fixPS6 1 fixRename = some (fixPS6b, fixP6b) := by decide
  claim6_capture_after_update h fixItem

/-- C7 witness. -/
theorem claim7_attach_idempotent_witness :
    EventSubject.attach (EventSubject.attach subjEmpty obsA) obsA
      = EventSubject.attach subjEmpty obsA ∧
    (EventSubject.notify (EventSubject.attach (EventSubject.attach subjEmpty obsA) obsA)
        fixEvent).countP (fun d => d.1 == obsA.ref) = 1 :=
  claim7_attach_idempotent subjEmpty obsA fixEvent (by decide)

/-- C8 witness: the middle listener throws, yet the delivery trace covers
all three identities in order and the later listener still receives the
event. -/
theorem claim8_notify_isolation_witness :
    ((EventSubject.notify subjABC fixEvent).map Prod.fst = [1, 2, 3]) ∧
    ((3, (Except.ok () : Except String Unit)) ∈ EventSubject.notify subjABC fixEvent) :=
  ⟨((claim8_notify_isolation subjABC fixEvent).1).trans rfl,
   (claim8_notify_isolation subjABC fixEvent).2 [obsA] obsB [obsC] rfl "boom" rfl obsC
     (List.mem_singleton.mpr rfl)⟩

/-- C9 witness. -/
theorem claim9_duplicate_name_rejected_witness :
    (ProductService.createProduct fixDBW fixPReq).1 = fixDBW ∧
    okB (ProductService.createProduct fixDBW fixPReq).2 = false :=
  claim9_duplicate_name_rejected (by decide)

/-- C10 witness: completing the already-completed order counts it a
second time. -/
theorem claim10_stats_double_count_witness :
    (OrderFacade.updateOrderStatus fixDBDone 1 "COMPLETED").2.2
        = .ok { fixOrderDone with status := "COMPLETED" } ∧
    (OrderFacade.updateOrderStatus fixDBDone 1 "COMPLETED").2.1
        = [.orderStatusChanged 1 "COMPLETED" "COMPLETED"
            { fixOrderDone with status := "COMPLETED" }] ∧
    StatisticsObserver.update fixStats
        (.orderStatusChanged 1 "COMPLETED" "COMPLETED" { fixOrderDone with status := "COMPLETED" })
      = { fixStats with ordersCompleted := fixStats.ordersCompleted + 1,
                        totalRevenue := fixStats.totalRevenue + fixOrderDone.total } :=
  have hfind : findOrder fixDBDone.orders 1 = some fixOrderDone := by decide
  claim10_stats_double_count fixStats hfind (by decide)
